import Mathlib

/-!
# Verification of the fraud-detection core

Shallow embedding of the repository's anomaly-detection core:
* `backend/data_generator.py` — synthetic transaction corpus generator
  (`TransactionDataGenerator`);
* `backend/model.py` — feature pipeline, training and scoring wrapper
  (`FraudDetectionModel`), risk classification and rule-based explanation.

Numerics are modelled over `ℚ`.  All randomness in the source flows through
the numpy global stream seeded once in `TransactionDataGenerator.__init__`;
the embedding threads an explicit `RandState` through every draw.  The
continuous distribution samplers (`lognormal`, `beta`, `gamma`, `uniform`)
are deterministic stand-ins for the library samplers that agree with them on
what the verified claims depend on: determinism (a pure function of the
stream state) and the support of the distribution.  The Isolation-Forest
scoring itself lives in scikit-learn, outside this repository; scoring-side
theorems are therefore stated for an arbitrary decision function `dfn`,
matching the library only in its documented sign convention
(`predict = -1` exactly when `decision_function < 0`).
-/

namespace FraudDetect

/-! ## Pseudo-random stream -/

/-- State of the single seeded pseudo-random stream (`np.random.seed(seed)` /
`random.seed(seed)` in `TransactionDataGenerator.__init__`). -/
structure RandState where
  val : ℕ
deriving DecidableEq

/-- `TransactionDataGenerator.__init__`: seeding the global stream. -/
def mkGenerator (seed : ℕ) : RandState := ⟨seed⟩

/-- One step of the stream: a linear congruential update, standing in for
the numpy global generator.  Deterministic in the state; the word-size
truncation of the library generator is omitted, as no verified claim
depends on the word size. -/
def nextNat (s : RandState) : ℕ × RandState :=
  let v := s.val * 6364136223846793005 + 1442695040888963407
  (v, ⟨v⟩)

/-- A draw in `[0, 1)` from the stream. -/
def unitDraw (s : RandState) : ℚ × RandState :=
  let p := nextNat s
  (((p.1 % 1000000 : ℕ) : ℚ) / 1000000, p.2)

/-- `np.random.lognormal(mean, sigma)`: support `(0, ∞)`.  Stand-in draw;
only determinism matters to the claims (amounts are clipped afterwards). -/
def lognormalDraw (mean sigma : ℚ) (s : RandState) : ℚ × RandState :=
  let p := unitDraw s
  ((p.1 + 1 / 2) * (1 + (mean + sigma) ^ 2), p.2)

/-- `np.random.beta(a, b)`: support `[0, 1]`.  Stand-in draw in `[0, 1)`;
the shape parameters alter the distribution, not the support. -/
def betaDraw (_a _b : ℚ) (s : RandState) : ℚ × RandState :=
  unitDraw s

/-- `np.random.uniform(lo, hi)`: a draw in `[lo, hi)`. -/
def uniformDraw (lo hi : ℚ) (s : RandState) : ℚ × RandState :=
  let p := unitDraw s
  (lo + p.1 * (hi - lo), p.2)

/-- `np.random.gamma(shape, scale)`: support `[0, ∞)`.  Stand-in draw. -/
def gammaDraw (shape scale : ℚ) (s : RandState) : ℚ × RandState :=
  let p := unitDraw s
  (p.1 * shape * scale * 3, p.2)

/-- `np.random.poisson(lam)`: a natural number draw. -/
def poissonDraw (lam : ℕ) (s : RandState) : ℕ × RandState :=
  let p := nextNat s
  (p.1 % (2 * lam + 10), p.2)

/-- `np.random.randint(lo, hi)`: uniform integer in `[lo, hi)`. -/
def randintDraw (lo hi : ℕ) (s : RandState) : ℕ × RandState :=
  let p := nextNat s
  (lo + p.1 % (hi - lo), p.2)

/-- `np.random.choice(n)`: uniform integer in `[0, n)`. -/
def choiceNat (n : ℕ) (s : RandState) : ℕ × RandState :=
  let p := nextNat s
  (p.1 % n, p.2)

/-- Element of a list at an index (`xs[i]` in the source), by structural
recursion; out-of-range yields the default element. -/
def pickAt {α : Type} [Inhabited α] : List α → ℕ → α
  | [], _ => default
  | x :: _, 0 => x
  | _ :: xs, n + 1 => pickAt xs n

/-- `np.random.choice(xs)`: uniform element of a list. -/
def choiceList {α : Type} [Inhabited α] (xs : List α) (s : RandState) : α × RandState :=
  let p := nextNat s
  (pickAt xs (p.1 % xs.length), p.2)

/-- Index selected by a cumulative walk over a weight list given a unit draw
(the inverse-cdf view of `np.random.choice(.., p=weights)`). -/
def weightedIndex : List ℚ → ℚ → ℕ
  | [], _ => 0
  | [_], _ => 0
  | w :: rest, u => if u < w then 0 else weightedIndex rest (u - w) + 1

/-- `np.random.choice(xs, p=weights)`. -/
def weightedChoice {α : Type} [Inhabited α] (xs : List α) (w : List ℚ)
    (s : RandState) : α × RandState :=
  let p := unitDraw s
  (xs.getD (weightedIndex w p.1) default, p.2)

/-! ## Rounding and clipping -/

/-- `np.clip(x, lo, hi)`. -/
def clip (x lo hi : ℚ) : ℚ := max lo (min x hi)

/-- `round(x, d)`: round to `d` decimal places.  The tie-breaking mode
(banker's rounding in Python) is immaterial to the verified bounds, which
only use monotonicity and the fixed points at `d`-decimal values. -/
def roundTo (d : ℕ) (x : ℚ) : ℚ := ((round (x * 10 ^ d) : ℤ) : ℚ) / 10 ^ d

/-! ## Corpus generator (`backend/data_generator.py`) -/

/-- A generated transaction row, the dict literal built in
`generate_normal_transactions` / `generate_fraudulent_transactions`. -/
structure GenRecord where
  transaction_id : String
  amount : ℚ
  transaction_type : String
  account_age_days : ℕ
  location_risk_score : ℚ
  device_risk_score : ℚ
  transaction_hour : ℕ
  past_transactions_24h : ℕ
  is_anomaly : ℕ
deriving DecidableEq, Inhabited

/-- The literal hour-weight table of `generate_normal_transactions`. -/
def hourWeightsRaw : List ℚ :=
  [2/100, 1/100, 1/100, 1/100, 2/100, 3/100, 5/100, 8/100,
   10/100, 9/100, 8/100, 7/100, 6/100, 7/100, 8/100, 9/100,
   10/100, 12/100, 15/100, 8/100, 5/100, 3/100, 2/100, 1/100]

/-- `hour_weights / hour_weights.sum()`. -/
def hourWeights : List ℚ := hourWeightsRaw.map (· / hourWeightsRaw.sum)

/-- The transaction-type list of `generate_normal_transactions`. -/
def transactionTypes : List String := ["purchase", "transfer", "withdrawal", "payment"]

/-- The type-weight list of `generate_normal_transactions`. -/
def typeWeights : List ℚ := [40/100, 25/100, 20/100, 15/100]

/-- One iteration of the loop in `generate_normal_transactions`. -/
def genNormalOne (i : ℕ) (s0 : RandState) : GenRecord × RandState :=
  let p1 := lognormalDraw 3 (3/2) s0
  let amount := clip p1.1 1 50000
  let p2 := weightedChoice transactionTypes typeWeights p1.2
  let p3 := gammaDraw 2 365 p2.2
  let p4 := betaDraw 2 10 p3.2
  let p5 := betaDraw 3 8 p4.2
  let p6 := unitDraw p5.2
  let hour := weightedIndex hourWeights p6.1
  let p7 := poissonDraw 5 p6.2
  ({ transaction_id := "TXN_" ++ toString (i + 1)
     amount := roundTo 2 amount
     transaction_type := p2.1
     account_age_days := p3.1.floor.toNat
     location_risk_score := roundTo 3 p4.1
     device_risk_score := roundTo 3 p5.1
     transaction_hour := hour
     past_transactions_24h := p7.1
     is_anomaly := 0 }, p7.2)

/-- The loop of `generate_normal_transactions` starting at index `i`. -/
def genNormalList : ℕ → ℕ → RandState → List GenRecord × RandState
  | 0, _, s => ([], s)
  | n + 1, i, s =>
    let p := genNormalOne i s
    let rest := genNormalList n (i + 1) p.2
    (p.1 :: rest.1, rest.2)

/-- `generate_normal_transactions(n_transactions)`. -/
def generateNormalTransactions (n : ℕ) (s : RandState) : List GenRecord × RandState :=
  genNormalList n 0 s

/-- The archetype list drawn at the top of the fraud loop. -/
def fraudTypes : List String := ["high_amount", "late_night", "high_risk", "burst"]

/-- The per-archetype branch of the fraud loop: amount, type and hour, plus
the risk scores (`high_risk` only) and burst count (`burst` only). -/
structure FraudDraft where
  amount : ℚ
  ttype : String
  hour : ℕ
  lrisk : Option ℚ
  drisk : Option ℚ
  ptx : Option ℕ

/-- The `if fraud_type == ...` branch of `generate_fraudulent_transactions`. -/
def fraudBranch (ft : String) (s0 : RandState) : FraudDraft × RandState :=
  if ft = "high_amount" then
    let p1 := lognormalDraw 8 (3/2) s0
    let a := clip p1.1 10000 100000
    let p2 := choiceList ["transfer", "purchase"] p1.2
    let p3 := choiceNat 12 p2.2
    (⟨a, p2.1, 9 + p3.1, none, none, none⟩, p3.2)
  else if ft = "late_night" then
    let p1 := lognormalDraw 4 (3/2) s0
    let a := clip p1.1 100 10000
    let p2 := choiceList ["transfer", "withdrawal"] p1.2
    let p3 := choiceList [0, 1, 2, 3, 4, 5, 22, 23] p2.2
    (⟨a, p2.1, p3.1, none, none, none⟩, p3.2)
  else if ft = "high_risk" then
    let p1 := lognormalDraw 5 (3/2) s0
    let a := clip p1.1 500 20000
    let p2 := choiceList ["transfer", "purchase"] p1.2
    let p3 := choiceNat 24 p2.2
    let p4 := uniformDraw (7/10) 1 p3.2
    let p5 := uniformDraw (7/10) 1 p4.2
    (⟨a, p2.1, p3.1, some p4.1, some p5.1, none⟩, p5.2)
  else
    let p1 := lognormalDraw (7/2) 1 s0
    let a := clip p1.1 50 5000
    let p2 := choiceList ["purchase", "payment"] p1.2
    let p3 := choiceNat 24 p2.2
    let p4 := randintDraw 20 50 p3.2
    (⟨a, p2.1, p3.1, none, none, some p4.1⟩, p4.2)

/-- One iteration of the fraud loop after the archetype has been chosen:
the archetype branch followed by the shared draws (`location_risk_score` /
`device_risk_score` unless `high_risk`, `past_transactions_24h` unless
`burst`, and `account_age_days`). -/
def genFraudOneBody (ft : String) (i : ℕ) (s0 : RandState) : GenRecord × RandState :=
  let pb := fraudBranch ft s0
  let d := pb.1
  let q1 :=
    if ft ≠ "high_risk" then
      let b1 := betaDraw 1 3 pb.2
      let b2 := betaDraw 1 2 b1.2
      ((b1.1, b2.1), b2.2)
    else ((d.lrisk.getD 0, d.drisk.getD 0), pb.2)
  let q2 := if ft ≠ "burst" then poissonDraw 8 q1.2 else (d.ptx.getD 0, q1.2)
  let q3 := gammaDraw 1 180 q2.2
  ({ transaction_id := "FRD_" ++ toString (i + 1)
     amount := roundTo 2 d.amount
     transaction_type := d.ttype
     account_age_days := q3.1.floor.toNat
     location_risk_score := roundTo 3 q1.1.1
     device_risk_score := roundTo 3 q1.1.2
     transaction_hour := d.hour
     past_transactions_24h := q2.1
     is_anomaly := 1 }, q3.2)

/-- One iteration of the loop in `generate_fraudulent_transactions`. -/
def genFraudOne (i : ℕ) (s0 : RandState) : GenRecord × RandState :=
  let pft := choiceList fraudTypes s0
  genFraudOneBody pft.1 i pft.2

/-- The fraud loop starting at index `i`. -/
def genFraudList : ℕ → ℕ → RandState → List GenRecord × RandState
  | 0, _, s => ([], s)
  | n + 1, i, s =>
    let p := genFraudOne i s
    let rest := genFraudList n (i + 1) p.2
    (p.1 :: rest.1, rest.2)

/-- `generate_fraudulent_transactions(n_transactions)`. -/
def generateFraudulentTransactions (n : ℕ) (s : RandState) : List GenRecord × RandState :=
  genFraudList n 0 s

/-- `np.random.shuffle`: repeatedly extract the element at a stream-chosen
index (a Fisher-Yates-style pass driven by the same seeded stream). -/
def shuffleDraw : ℕ → List GenRecord → RandState → List GenRecord × RandState
  | 0, _, s => ([], s)
  | n + 1, xs, s =>
    let p := nextNat s
    let i := p.1 % xs.length
    let rest := shuffleDraw n (xs.eraseIdx i) p.2
    (xs.getD i default :: rest.1, rest.2)

/-- `generate_dataset`, with the normal / fraud population sizes as explicit
parameters: generate both populations from the single stream, concatenate,
and shuffle under the same stream. -/
def generateDatasetWith (nNormal nFraud : ℕ) (s0 : RandState) : List GenRecord :=
  let pn := generateNormalTransactions nNormal s0
  let pf := generateFraudulentTransactions nFraud pn.2
  let allTx := pn.1 ++ pf.1
  (shuffleDraw allTx.length allTx pf.2).1

/-- Reference population size of `generate_dataset`: 10000 normal rows. -/
def datasetNormalCount : ℕ := 10000

/-- Reference population size of `generate_dataset`: 400 fraud rows. -/
def datasetFraudCount : ℕ := 400

/-- `generate_dataset()` on a generator seeded with `seed`. -/
def generateDataset (seed : ℕ) : List GenRecord :=
  generateDatasetWith datasetNormalCount datasetFraudCount (mkGenerator seed)

/-! ## Feature pipeline and model (`backend/model.py`)

A DataFrame row is a `RawRecord`: a numeric field holds `none` where the
source value is `NaN` (a missing value in a present column — pandas keeps
the column and fills the hole with `NaN` when a dict value is `None`).
`is_anomaly` is the ground-truth column of the generated corpus; it is
`none` when the column is absent (as in a `/predict` request). -/

structure RawRecord where
  amount : Option ℚ
  transaction_type : String
  account_age_days : Option ℚ
  location_risk_score : Option ℚ
  device_risk_score : Option ℚ
  transaction_hour : Option ℚ
  past_transactions_24h : Option ℚ
  is_anomaly : Option ℚ
deriving DecidableEq

/-- Errors surfaced by the model wrapper.  In the source these are the
`ValueError` raised by `predict` before training (`NotTrainedError` in the
spec's vocabulary), the unseen-label `ValueError` raised by
`LabelEncoder.transform` (`UnknownCategoryError`), the missing-column
`ValueError` of `preprocess_features`, and the non-finite-input rejection
of the scikit-learn estimators. -/
inductive PErr
  | notTrained
  | unknownCategory
  | missingColumn
  | nanInput
deriving DecidableEq

/-- Strict lexicographic comparison of character lists (structural
recursion, unlike the iterator-based core comparison, so that concrete
instances reduce inside the kernel). -/
def charsLt : List Char → List Char → Bool
  | [], [] => false
  | [], _ :: _ => true
  | _ :: _, [] => false
  | a :: as, b :: bs =>
    if a.val < b.val then true else if b.val < a.val then false else charsLt as bs

/-- String order used to sort the encoder classes. -/
def strLe (a b : String) : Bool := !(charsLt b.data a.data)

/-- `LabelEncoder.fit`: the sorted distinct categories (`np.unique`). -/
def fitClasses (vals : List String) : List String :=
  List.insertionSort (fun a b => strLe a b = true) vals.eraseDups

/-- `LabelEncoder.transform` on one value: the index of the category among
the fitted classes. -/
def encodeType (classes : List String) (t : String) : ℕ :=
  classes.indexOf t

/-- The ordered feature row `df_processed[feature_columns]` of one record:
`[amount, transaction_type_encoded, account_age_days, location_risk_score,
device_risk_score, transaction_hour, past_transactions_24h]`, each numeric
entry still optional (`NaN` before `fillna`). -/
def rowFeatures (classes : List String) (r : RawRecord) : List (Option ℚ) :=
  [r.amount, some ((encodeType classes r.transaction_type : ℕ) : ℚ),
   r.account_age_days, r.location_risk_score, r.device_risk_score,
   r.transaction_hour, r.past_transactions_24h]

/-- Column `j` of a feature matrix. -/
def colOf (rows : List (List (Option ℚ))) (j : ℕ) : List (Option ℚ) :=
  rows.map (fun r => r.getD j none)

/-- `Series.mean()`: the mean of the non-missing entries, `NaN` (here
`none`) when every entry is missing. -/
def colMean (col : List (Option ℚ)) : Option ℚ :=
  let xs := col.filterMap id
  if xs.length = 0 then none else some (xs.sum / xs.length)

/-- Fill the holes of one row, position by position, from a per-column
fill value (`none` fill leaves the hole: `fillna(NaN)` is the identity). -/
def fillRowWith (m : ℕ → Option ℚ) : List (Option ℚ) → List (Option ℚ)
  | [] => []
  | v :: rest => (v <|> m 0) :: fillRowWith (fun j => m (j + 1)) rest

/-- `X.fillna(X.mean())`: every hole of column `j` is filled with the mean
of column `j` of this same matrix. -/
def fillnaMean (rows : List (List (Option ℚ))) : List (List (Option ℚ)) :=
  rows.map (fillRowWith (fun j => colMean (colOf rows j)))

/-- The feature matrix returned by `preprocess_features` for a fitted
encoding: feature selection followed by `fillna` with the batch means. -/
def preprocessX (classes : List String) (df : List RawRecord) : List (List (Option ℚ)) :=
  fillnaMean (df.map (rowFeatures classes))

/-- Fitted state of `FraudDetectionModel` (`__init__` fields).  The
scikit-learn forest object is represented by the data it was fitted on and
the contamination parameter it was given; its scoring function is kept
abstract (see `predictWith`). -/
structure FDState where
  encoder : Option (List String)
  scalerMean : Option (List ℚ)
  scalerVar : Option (List ℚ)
  modelData : Option (List (List ℚ))
  modelContamination : Option ℚ
  trained : Bool
deriving DecidableEq

/-- `FraudDetectionModel.__init__`. -/
def initialState : FDState :=
  { encoder := none, scalerMean := none, scalerVar := none
    modelData := none, modelContamination := none, trained := false }

/-- `preprocess_features(df)`: fit the label encoding when absent
(`fit_transform`), otherwise reuse it and fail on an unseen category
(`transform`); then select the feature columns and fill missing values with
the column means of this same batch. -/
def preprocessFeatures (st : FDState) (df : List RawRecord) :
    Except PErr (List (List (Option ℚ))) × FDState :=
  match st.encoder with
  | none =>
    let classes := fitClasses (df.map (·.transaction_type))
    (Except.ok (preprocessX classes df), { st with encoder := some classes })
  | some classes =>
    if df.all (fun r => decide (r.transaction_type ∈ classes)) then
      (Except.ok (preprocessX classes df), st)
    else
      (Except.error PErr.unknownCategory, st)

/-- A matrix with no remaining missing entry, as required by the
scikit-learn estimators (which reject non-finite inputs). -/
def denseOf (x : List (List (Option ℚ))) : Option (List (List ℚ)) :=
  if x.all (fun r => r.all Option.isSome) then some (x.map (·.filterMap id)) else none

/-- Mean of a dense column list. -/
def meanQ (xs : List ℚ) : ℚ := xs.sum / xs.length

/-- `StandardScaler.fit` means: per-feature mean over the fitted matrix. -/
def colMeans (xd : List (List ℚ)) : List ℚ :=
  (List.range 7).map (fun j => meanQ (xd.map (fun r => r.getD j 0)))

/-- `StandardScaler.fit` variances: per-feature population variance. -/
def colVars (xd : List (List ℚ)) : List ℚ :=
  (List.range 7).map (fun j =>
    let c := xd.map (fun r => r.getD j 0)
    let m := meanQ c
    meanQ (c.map (fun v => (v - m) ^ 2)))

/-- One Newton step toward `√x`. -/
def sqrtStep (x g : ℚ) : ℚ := (g + x / g) / 2

/-- Rational square-root approximation (Newton iteration), standing in for
the real square root in `StandardScaler.scale_`.  Exact on `0` and `1`; no
verified claim depends on its value elsewhere. -/
def sqrtQ (x : ℚ) : ℚ :=
  if x ≤ 0 then 0 else (List.range 8).foldl (fun g _ => sqrtStep x g) (max x 1)

/-- `StandardScaler.transform` on one row: `(x - mean) / scale` with
`scale = √var`, and `scale = 1` for a zero-variance feature. -/
def scaleRow (means vars : List ℚ) (row : List ℚ) : List ℚ :=
  (List.range 7).map (fun j =>
    (row.getD j 0 - means.getD j 0) / (if 0 < vars.getD j 0 then sqrtQ (vars.getD j 0) else 1))

/-- The contamination value hard-coded in `FraudDetectionModel.train`
(`IsolationForest(..., contamination=0.04, ...)`). -/
def isolationForestContamination : ℚ := 4 / 100

/-- `FraudDetectionModel.train(df)`: preprocess (fitting the encoding),
fit the scaler, scale, and fit the forest with the hard-coded contamination;
on success the fitted state is recorded and `is_trained` set. -/
def train (st : FDState) (df : List RawRecord) : Except PErr Unit × FDState :=
  let pr := preprocessFeatures st df
  match pr.1 with
  | Except.error e => (Except.error e, pr.2)
  | Except.ok x =>
    match denseOf x with
    | none => (Except.error PErr.nanInput, pr.2)
    | some xd =>
      let means := colMeans xd
      let vars := colVars xd
      let xs := xd.map (scaleRow means vars)
      (Except.ok (),
       { pr.2 with scalerMean := some means, scalerVar := some vars
                   modelData := some xs
                   modelContamination := some isolationForestContamination
                   trained := true })

/-- The label assignment of `predict`: `"FRAUD"` when the forest predicts
`-1`, which by the scikit-learn sign convention is exactly
`decision_function < 0`. -/
def classifyLabel (score : ℚ) : String :=
  if score < 0 then "FRAUD" else "SAFE"

/-- The risk-level ladder of `predict`: `HIGH` below `-0.1`, `MEDIUM`
below `0`, `LOW` otherwise — fixed constants in the source. -/
def riskLevel (score : ℚ) : String :=
  if score < -(1/10) then "HIGH" else if score < 0 then "MEDIUM" else "LOW"

/-- One finding of `_generate_explanation`, carrying the raw value quoted
in the corresponding message (string formatting elided). -/
inductive Finding
  | flaggedFraud
  | appearsNormal
  | highAmount (amount : ℚ)
  | highLocationRisk (v : ℚ)
  | highDeviceRisk (v : ℚ)
  | unusualTime (hour : ℚ)
  | highActivity (n : ℚ)
  | newAccount (days : ℚ)
  | lowRiskProfile
deriving DecidableEq

/-- `_generate_explanation(transaction_data, anomaly_score, label)`: the
ordered findings list (joined with `" | "` in the source).  Each field is
read with `transaction_data.get(key, 0)`, so a missing field acts as `0`. -/
def explanationFindings (r : RawRecord) (score : ℚ) (lbl : String) : List Finding :=
  if lbl = "FRAUD" then
    [Finding.flaggedFraud]
      ++ (if r.amount.getD 0 > 10000 then [Finding.highAmount (r.amount.getD 0)] else [])
      ++ (if r.location_risk_score.getD 0 > 7/10 then
            [Finding.highLocationRisk (r.location_risk_score.getD 0)] else [])
      ++ (if r.device_risk_score.getD 0 > 7/10 then
            [Finding.highDeviceRisk (r.device_risk_score.getD 0)] else [])
      ++ (if r.transaction_hour.getD 0 < 6 ∨ r.transaction_hour.getD 0 > 22 then
            [Finding.unusualTime (r.transaction_hour.getD 0)] else [])
      ++ (if r.past_transactions_24h.getD 0 > 20 then
            [Finding.highActivity (r.past_transactions_24h.getD 0)] else [])
      ++ (if r.account_age_days.getD 0 < 30 then
            [Finding.newAccount (r.account_age_days.getD 0)] else [])
  else
    [Finding.appearsNormal] ++ (if score > 1/10 then [Finding.lowRiskProfile] else [])

/-- The result dict of `predict` (explanation kept as its findings list). -/
structure PredictionResult where
  prediction : String
  anomaly_score : ℚ
  risk_level : String
  explanation : List Finding
deriving DecidableEq

/-- `FraudDetectionModel.predict(transaction_data)` on a single record,
parameterized by the forest's decision function `dfn` (library code outside
this repository; only its sign convention is used, inside `classifyLabel`).
Raises before scoring when untrained; preprocesses (which fails on an
unseen category, leaving the state untouched); scales; scores; classifies;
explains. -/
def predictWith (dfn : List ℚ → ℚ) (st : FDState) (r : RawRecord) :
    Except PErr PredictionResult × FDState :=
  if st.trained then
    let pr := preprocessFeatures st [r]
    match pr.1 with
    | Except.error e => (Except.error e, pr.2)
    | Except.ok x =>
      match denseOf x, pr.2.scalerMean, pr.2.scalerVar with
      | some xd, some ms, some vs =>
        let v := scaleRow ms vs (xd.headD [])
        let score := dfn v
        let lbl := classifyLabel score
        (Except.ok { prediction := lbl, anomaly_score := score
                     risk_level := riskLevel score
                     explanation := explanationFindings r score lbl }, pr.2)
      | _, _, _ => (Except.error PErr.nanInput, pr.2)
  else
    (Except.error PErr.notTrained, st)

/-! ## Specification-side statement of the explanation contract

`explainSpec` restates §4.4 of the specification in its own words — a
leading summary, then the fixed candidate order with each finding kept
exactly when its condition holds — to be compared with the code-shaped
`explanationFindings`. -/

/-- The candidate findings of a FRAUD explanation, in the fixed order the
specification lists them. -/
def specFindingOrder (r : RawRecord) : List Finding :=
  [Finding.highAmount (r.amount.getD 0),
   Finding.highLocationRisk (r.location_risk_score.getD 0),
   Finding.highDeviceRisk (r.device_risk_score.getD 0),
   Finding.unusualTime (r.transaction_hour.getD 0),
   Finding.highActivity (r.past_transactions_24h.getD 0),
   Finding.newAccount (r.account_age_days.getD 0)]

/-- The specification's condition for each candidate finding (the hour
condition is stated as "outside [6, 22]"). -/
def specHolds (r : RawRecord) : Finding → Bool
  | Finding.highAmount _ => decide (r.amount.getD 0 > 10000)
  | Finding.highLocationRisk _ => decide (r.location_risk_score.getD 0 > 7/10)
  | Finding.highDeviceRisk _ => decide (r.device_risk_score.getD 0 > 7/10)
  | Finding.unusualTime _ =>
      !(decide (6 ≤ r.transaction_hour.getD 0 ∧ r.transaction_hour.getD 0 ≤ 22))
  | Finding.highActivity _ => decide (r.past_transactions_24h.getD 0 > 20)
  | Finding.newAccount _ => decide (r.account_age_days.getD 0 < 30)
  | _ => true

/-- §4.4 `explain`, as the specification words it. -/
def explainSpec (r : RawRecord) (score : ℚ) (lbl : String) : List Finding :=
  if lbl = "FRAUD" then
    Finding.flaggedFraud :: (specFindingOrder r).filter (specHolds r)
  else
    Finding.appearsNormal :: (if score > 1/10 then [Finding.lowRiskProfile] else [])

/-- A record with every optional numeric field replaced by its
`dict.get(key, 0)` default. -/
def withDefaults (r : RawRecord) : RawRecord :=
  { r with amount := some (r.amount.getD 0)
           account_age_days := some (r.account_age_days.getD 0)
           location_risk_score := some (r.location_risk_score.getD 0)
           device_risk_score := some (r.device_risk_score.getD 0)
           transaction_hour := some (r.transaction_hour.getD 0)
           past_transactions_24h := some (r.past_transactions_24h.getD 0) }

/-! ## Concrete fixtures used by witnesses and counterexamples -/

/-- A fully-populated record of type `t` and amount `a`. -/
def wRecord (t : String) (a : ℚ) : RawRecord :=
  { amount := some a, transaction_type := t, account_age_days := some 100
    location_risk_score := some 0, device_risk_score := some 0
    transaction_hour := some 12, past_transactions_24h := some 1, is_anomaly := some 0 }

/-- A two-record training corpus with amounts 1 and 3 (amount mean 2). -/
def wCorpus : List RawRecord := [wRecord "purchase" 1, wRecord "transfer" 3]

/-- The fitted state after training on `wCorpus`. -/
def wState : FDState := (train initialState wCorpus).2

/-- A record whose `amount` is missing. -/
def rMissing : RawRecord := { wRecord "purchase" 0 with amount := none }

/-- A record missing all the fields the explanation reads. -/
def rBare : RawRecord :=
  { amount := none, transaction_type := "purchase", account_age_days := none
    location_risk_score := none, device_risk_score := none
    transaction_hour := none, past_transactions_24h := none, is_anomaly := none }

/-! ## Helper lemmas -/

theorem clip_bounds (x lo hi : ℚ) (h : lo ≤ hi) : lo ≤ clip x lo hi ∧ clip x lo hi ≤ hi :=
  ⟨le_max_left _ _, max_le h (min_le_right _ _)⟩

theorem roundTo_mono (d : ℕ) {x y : ℚ} (h : x ≤ y) : roundTo d x ≤ roundTo d y := by
  unfold roundTo
  have h10 : (0:ℚ) < 10 ^ d := by positivity
  have hr : round (x * 10 ^ d) ≤ round (y * 10 ^ d) := by
    rw [round_eq, round_eq]
    exact Int.floor_le_floor (by nlinarith)
  exact (div_le_div_iff_of_pos_right h10).mpr (by exact_mod_cast hr)

theorem roundTo_natCast (d n : ℕ) : roundTo d (n : ℚ) = n := by
  unfold roundTo
  have h : ((n : ℚ) * 10 ^ d) = (((n * 10 ^ d : ℕ) : ℤ) : ℚ) := by push_cast; ring
  rw [h, round_intCast]
  push_cast
  field_simp

theorem roundTo_nat_bounds (d lo hi : ℕ) (x : ℚ) (h1 : (lo : ℚ) ≤ x) (h2 : x ≤ (hi : ℚ)) :
    (lo : ℚ) ≤ roundTo d x ∧ roundTo d x ≤ (hi : ℚ) := by
  constructor
  · calc (lo : ℚ) = roundTo d (lo : ℚ) := (roundTo_natCast d lo).symm
    _ ≤ roundTo d x := roundTo_mono d h1
  · calc roundTo d x ≤ roundTo d (hi : ℚ) := roundTo_mono d h2
    _ = (hi : ℚ) := roundTo_natCast d hi

theorem unitDraw_bounds (s : RandState) : 0 ≤ (unitDraw s).1 ∧ (unitDraw s).1 < 1 := by
  unfold unitDraw
  constructor
  · positivity
  · rw [div_lt_one (by norm_num)]
    exact_mod_cast Nat.mod_lt _ (by norm_num)

theorem betaDraw_bounds (a b : ℚ) (s : RandState) :
    0 ≤ (betaDraw a b s).1 ∧ (betaDraw a b s).1 < 1 :=
  unitDraw_bounds s

theorem uniformDraw_bounds (lo hi : ℚ) (s : RandState) (h : lo ≤ hi) :
    lo ≤ (uniformDraw lo hi s).1 ∧ (uniformDraw lo hi s).1 ≤ hi := by
  unfold uniformDraw
  dsimp only
  obtain ⟨h0, h1⟩ := unitDraw_bounds s
  constructor
  · nlinarith
  · nlinarith

theorem weightedIndex_lt (w : List ℚ) (u : ℚ) (h : w ≠ []) : weightedIndex w u < w.length := by
  induction w generalizing u with
  | nil => exact absurd rfl h
  | cons x xs ih =>
    cases xs with
    | nil => simp [weightedIndex]
    | cons y ys =>
      rw [weightedIndex]
      split
      · simp
      · have h2 := ih (u - x) (List.cons_ne_nil y ys)
        simp only [List.length_cons] at h2 ⊢
        omega
      · exact fun hcon => List.noConfusion hcon

theorem fillRowWith_getElem (row : List (Option ℚ)) (m : ℕ → Option ℚ) (j : ℕ)
    (v : Option ℚ) (h : row[j]? = some v) :
    (fillRowWith m row)[j]? = some (v <|> m j) := by
  induction row generalizing m j with
  | nil => simp at h
  | cons x rest ih =>
    cases j with
    | zero =>
      simp only [List.getElem?_cons_zero, Option.some_inj] at h
      subst h
      simp [fillRowWith]
    | succ j =>
      simp only [List.getElem?_cons_succ] at h
      simpa [fillRowWith] using ih (fun k => m (k + 1)) j h

/-! ## Claims -/

/-- **C1, counterexample.**  The claim says a missing numeric value is
filled with the feature's fit-time mean (a constant across every record
transformed after fit).  The code (`X = X.fillna(X.mean())` in
`preprocess_features`) fills from the mean of the batch being transformed:
after fitting on `wCorpus` the fitted mean of `amount` is 2, yet a
post-fit single-record transform leaves a missing `amount` missing, and a
post-fit two-record batch fills it with the batch mean 5 ≠ 2. -/
theorem C1_counterexample :
    wState.scalerMean = some [2, 1/2, 100, 0, 0, 12, 1] ∧
    (preprocessFeatures wState [rMissing]).1 =
      Except.ok [[none, some 0, some 100, some 0, some 0, some 12, some 1]] ∧
    (preprocessFeatures wState [wRecord "purchase" 5, rMissing]).1 =
      Except.ok [[some 5, some 0, some 100, some 0, some 0, some 12, some 1],
                 [some 5, some 0, some 100, some 0, some 0, some 12, some 1]] ∧
    (5 : ℚ) ≠ 2 := by
  refine ⟨by with_unfolding_all rfl, by with_unfolding_all rfl,
    by with_unfolding_all rfl, by norm_num⟩

/-- **C1, amended.**  For a fitted encoding, `transform` fills a missing
numeric value with the mean of the non-missing values of that feature
within the batch passed to the same call (and leaves it missing when the
feature is missing in every row of the batch, as in a single-record
predict); the fill value is recomputed per call, not a fit-time
constant. -/
theorem C1_batch_mean_fill :
    ∀ (st : FDState) (classes : List String) (df : List RawRecord) (r : RawRecord)
      (i j : ℕ) (v : Option ℚ),
    st.encoder = some classes →
    df.all (fun q => decide (q.transaction_type ∈ classes)) = true →
    df[i]? = some r →
    (rowFeatures classes r)[j]? = some v →
    (preprocessFeatures st df).2 = st ∧
    (preprocessFeatures st df).1 = Except.ok (preprocessX classes df) ∧
    (preprocessX classes df)[i]?.bind (fun row => row[j]?) =
      some (v <|> colMean (colOf (df.map (rowFeatures classes)) j)) := by
  intro st classes df r i j v henc hall hdf hrow
  have hpre : preprocessFeatures st df = (Except.ok (preprocessX classes df), st) := by
    simp [preprocessFeatures, henc, hall]
  refine ⟨by rw [hpre], by rw [hpre], ?_⟩
  unfold preprocessX fillnaMean
  rw [List.getElem?_map, List.getElem?_map, hdf]
  simpa using fillRowWith_getElem (rowFeatures classes r) _ j v hrow

/-- **C1, witness for the amended claim**: after fitting on `wCorpus`,
transforming the batch `[wRecord "purchase" 5, rMissing]` fills the
missing `amount` of the second row with the batch mean of the `amount`
column. -/
theorem C1_batch_mean_fill_witness :
    wState.encoder = some ["purchase", "transfer"] ∧
    (preprocessX ["purchase", "transfer"]
        [wRecord "purchase" 5, rMissing])[1]?.bind (fun row => row[0]?) =
      some ((none : Option ℚ) <|>
        colMean (colOf ([wRecord "purchase" 5, rMissing].map
          (rowFeatures ["purchase", "transfer"])) 0)) := by
  refine ⟨by with_unfolding_all rfl, ?_⟩
  exact (C1_batch_mean_fill wState ["purchase", "transfer"]
    [wRecord "purchase" 5, rMissing] rMissing 1 0 none
    (by with_unfolding_all rfl) (by with_unfolding_all rfl) rfl rfl).2.2

/-- **C2, counterexample.**  The claim says the corpus contamination ratio
400/10400 is the value passed to the forest at fit time; the code passes
the hard-coded constant `0.04`, and `400/10400 ≠ 0.04`. -/
theorem C2_counterexample :
    (train initialState wCorpus).2.modelContamination = some isolationForestContamination ∧
    ((datasetFraudCount : ℚ) / ((datasetNormalCount : ℚ) + (datasetFraudCount : ℚ))) ≠
      isolationForestContamination := by
  constructor
  · with_unfolding_all rfl
  · norm_num [isolationForestContamination, datasetFraudCount, datasetNormalCount]

/-- **C2, amended.**  Every successful `train` passes the fixed constant
`0.04` to the Isolation Forest as its contamination parameter; this
constant approximates the reference corpus ratio `400/10400 ≈ 0.0385` to
within `1/500` but is not equal to it. -/
theorem C2_constant_contamination :
    (∀ (st : FDState) (df : List RawRecord),
      (train st df).1.isOk = true →
      (train st df).2.modelContamination = some (4/100)) ∧
    isolationForestContamination = 4/100 ∧
    |(datasetFraudCount : ℚ) / ((datasetNormalCount : ℚ) + (datasetFraudCount : ℚ)) -
      isolationForestContamination| < 1/500 ∧
    ((datasetFraudCount : ℚ) / ((datasetNormalCount : ℚ) + (datasetFraudCount : ℚ))) ≠
      isolationForestContamination := by
  refine ⟨?_, rfl, ?_, ?_⟩
  · intro st df h
    simp only [train] at h ⊢
    cases hpr : (preprocessFeatures st df).1 with
    | error e => rw [hpr] at h; simp [Except.isOk, Except.toBool] at h
    | ok x =>
      rw [hpr] at h
      dsimp only at h ⊢
      cases hd : denseOf x with
      | none => rw [hd] at h; simp [Except.isOk, Except.toBool] at h
      | some xd => rfl
  · norm_num [isolationForestContamination, datasetFraudCount, datasetNormalCount, abs_lt]
  · norm_num [isolationForestContamination, datasetFraudCount, datasetNormalCount]

/-- **C2, witness**: training on `wCorpus` succeeds and records the
constant contamination `0.04`. -/
theorem C2_constant_contamination_witness :
    (train initialState wCorpus).1.isOk = true ∧
    (train initialState wCorpus).2.modelContamination = some (4/100) :=
  ⟨by with_unfolding_all rfl,
   C2_constant_contamination.1 initialState wCorpus (by with_unfolding_all rfl)⟩

/-- **C3.**  On a trained state, `predict` on a record whose
`transaction_type` was not seen at fit time fails with the
unknown-category error and returns the state unchanged, so any subsequent
`predict` behaves exactly as if the failing request had never happened —
for every decision function the library forest might compute. -/
theorem C3_unknown_category :
    ∀ (dfn : List ℚ → ℚ) (st : FDState) (classes : List String) (r : RawRecord),
    st.trained = true → st.encoder = some classes → r.transaction_type ∉ classes →
    predictWith dfn st r = (Except.error PErr.unknownCategory, st) ∧
    ∀ r2, predictWith dfn (predictWith dfn st r).2 r2 = predictWith dfn st r2 := by
  intro dfn st classes r htr henc hmem
  have hpre : preprocessFeatures st [r] = (Except.error PErr.unknownCategory, st) := by
    simp [preprocessFeatures, henc, hmem]
  have hmain : predictWith dfn st r = (Except.error PErr.unknownCategory, st) := by
    unfold predictWith
    rw [htr]
    simp [hpre]
  exact ⟨hmain, fun r2 => by rw [hmain]⟩

/-- **C3, witness**: the state fitted on `wCorpus` rejects a `"debit"`
record with the unknown-category error and is left unchanged. -/
theorem C3_unknown_category_witness :
    wState.trained = true ∧ wState.encoder = some ["purchase", "transfer"] ∧
    "debit" ∉ ["purchase", "transfer"] ∧
    predictWith (fun _ => 0) wState (wRecord "debit" 2) =
      (Except.error PErr.unknownCategory, wState) := by
  refine ⟨by with_unfolding_all rfl, by with_unfolding_all rfl, by decide, ?_⟩
  exact (C3_unknown_category (fun _ => 0) wState ["purchase", "transfer"]
    (wRecord "debit" 2) (by with_unfolding_all rfl) (by with_unfolding_all rfl)
    (by decide)).1

/-- **C6.**  Corpus generation is a pure function of the seed (all
randomness is drawn from the single stream seeded in the constructor), so
two runs with equal seeds and equal population sizes produce identical
ordered record sequences, shuffle order included. -/
theorem C6_generator_determinism :
    ∀ (nNormal nFraud seed1 seed2 : ℕ), seed1 = seed2 →
    generateDatasetWith nNormal nFraud (mkGenerator seed1) =
      generateDatasetWith nNormal nFraud (mkGenerator seed2) := by
  intro n f s1 s2 h
  rw [h]

/-- **C6, witness** at seed 42 with a small population. -/
theorem C6_generator_determinism_witness :
    generateDatasetWith 3 1 (mkGenerator 42) = generateDatasetWith 3 1 (mkGenerator 42) :=
  C6_generator_determinism 3 1 42 42 rfl

/-- **C9.**  `predict` before training fails with the not-trained error,
produces no result and leaves the state unchanged, for every record and
every decision function. -/
theorem C9_not_trained :
    ∀ (dfn : List ℚ → ℚ) (st : FDState) (r : RawRecord), st.trained = false →
    predictWith dfn st r = (Except.error PErr.notTrained, st) := by
  intro dfn st r h
  unfold predictWith
  rw [h]
  simp

/-- **C9, witness** on the freshly constructed model. -/
theorem C9_not_trained_witness :
    initialState.trained = false ∧
    predictWith (fun _ => 0) initialState (wRecord "purchase" 1) =
      (Except.error PErr.notTrained, initialState) :=
  ⟨rfl, C9_not_trained (fun _ => 0) initialState (wRecord "purchase" 1) rfl⟩

/-- **C4.**  `classify` returns FRAUD exactly when the decision-function
value is negative and SAFE otherwise, and the risk ladder is HIGH below
`-0.1`, MEDIUM on `[-0.1, 0)`, LOW on `[0, ∞)`; the breakpoints are the
fixed constants of `predict`, taking no input besides the score. -/
theorem C4_classify_thresholds :
    ∀ score : ℚ,
      (classifyLabel score = "FRAUD" ↔ score < 0) ∧
      (classifyLabel score = "SAFE" ↔ 0 ≤ score) ∧
      (riskLevel score = "HIGH" ↔ score < -(1/10)) ∧
      (riskLevel score = "MEDIUM" ↔ (-(1/10) ≤ score ∧ score < 0)) ∧
      (riskLevel score = "LOW" ↔ 0 ≤ score) := by
  intro score
  unfold classifyLabel riskLevel
  by_cases h1 : score < -(1/10)
  · have h2 : score < 0 := by linarith
    rw [if_pos h1, if_pos h2]
    exact ⟨⟨fun _ => h2, fun _ => rfl⟩,
      ⟨fun hx => absurd hx (by decide), fun hy => absurd hy (not_le.mpr h2)⟩,
      ⟨fun _ => h1, fun _ => rfl⟩,
      ⟨fun hx => absurd hx (by decide), fun hy => absurd hy.1 (not_le.mpr h1)⟩,
      ⟨fun hx => absurd hx (by decide), fun hy => absurd hy (not_le.mpr h2)⟩⟩
  · by_cases h2 : score < 0
    · rw [if_pos h2, if_neg h1, if_pos h2]
      exact ⟨⟨fun _ => h2, fun _ => rfl⟩,
        ⟨fun hx => absurd hx (by decide), fun hy => absurd hy (not_le.mpr h2)⟩,
        ⟨fun hx => absurd hx (by decide), fun hy => absurd hy h1⟩,
        ⟨fun _ => ⟨not_lt.mp h1, h2⟩, fun _ => rfl⟩,
        ⟨fun hx => absurd hx (by decide), fun hy => absurd hy (not_le.mpr h2)⟩⟩
    · rw [if_neg h2, if_neg h1, if_neg h2]
      exact ⟨⟨fun hx => absurd hx (by decide), fun hy => absurd hy h2⟩,
        ⟨fun _ => not_lt.mp h2, fun _ => rfl⟩,
        ⟨fun hx => absurd hx (by decide), fun hy => absurd hy h1⟩,
        ⟨fun hx => absurd hx (by decide), fun hy => absurd hy.2 h2⟩,
        ⟨fun _ => not_lt.mp h2, fun _ => rfl⟩⟩

/-- **C8.**  The feature row is exactly the seven listed features — the
ground-truth `is_anomaly` column is not among them — and the whole
pipeline output (fit path and inference path alike) is invariant under
arbitrary rewrites of the `is_anomaly` column. -/
theorem C8_label_exclusion :
    ∀ (classes : List String) (r : RawRecord),
      rowFeatures classes r =
        [r.amount, some ((encodeType classes r.transaction_type : ℕ) : ℚ), r.account_age_days,
         r.location_risk_score, r.device_risk_score, r.transaction_hour,
         r.past_transactions_24h] ∧
      (rowFeatures classes r).length = 7 ∧
      (∀ b, rowFeatures classes { r with is_anomaly := b } = rowFeatures classes r) ∧
      (∀ (st : FDState) (df : List RawRecord) (g : RawRecord → Option ℚ),
        preprocessFeatures st (df.map (fun q => { q with is_anomaly := g q })) =
          preprocessFeatures st df) := by
  intro classes r
  refine ⟨rfl, rfl, fun b => rfl, ?_⟩
  intro st df g
  have hmaps : ∀ cs, List.map (rowFeatures cs) (df.map (fun q => { q with is_anomaly := g q })) =
      List.map (rowFeatures cs) df := by
    intro cs
    rw [List.map_map]
    exact List.map_congr_left (fun a _ => rfl)
  have hx : ∀ cs, preprocessX cs (df.map (fun q => { q with is_anomaly := g q })) =
      preprocessX cs df := by
    intro cs
    unfold preprocessX fillnaMean
    rw [hmaps]
  cases henc : st.encoder with
  | none =>
    simp only [preprocessFeatures, henc]
    have h1 : List.map (fun q => q.transaction_type)
        (df.map (fun q => { q with is_anomaly := g q })) =
        List.map (fun q => q.transaction_type) df := by
      rw [List.map_map]
      exact List.map_congr_left (fun a _ => rfl)
    rw [h1, hx]
  | some classes2 =>
    simp only [preprocessFeatures, henc]
    have h2 : List.all (df.map (fun q => { q with is_anomaly := g q }))
        (fun q => decide (q.transaction_type ∈ classes2)) =
        List.all df (fun q => decide (q.transaction_type ∈ classes2)) := by
      rw [List.all_map]
      rfl
    rw [h2, hx]


/-- **C5.**  The code-shaped explanation equals the specification-shaped
one: a leading summary, then for FRAUD the six findings kept in the fixed
order each exactly when its condition holds, and for a non-FRAUD label the
low-risk note exactly when the score exceeds `0.1`. -/
theorem C5_explanation_structure :
    ∀ (r : RawRecord) (score : ℚ) (lbl : String),
      explanationFindings r score lbl = explainSpec r score lbl ∧
      (explanationFindings r score lbl).head? =
        some (if lbl = "FRAUD" then Finding.flaggedFraud else Finding.appearsNormal) := by
  intro r score lbl
  constructor
  · unfold explanationFindings explainSpec specFindingOrder specHolds
    by_cases hl : lbl = "FRAUD"
    · rw [if_pos hl, if_pos hl]
      have hh : (r.transaction_hour.getD 0 < 6 ∨ r.transaction_hour.getD 0 > 22) ↔
          ¬(6 ≤ r.transaction_hour.getD 0 ∧ r.transaction_hour.getD 0 ≤ 22) := by
        rw [not_and_or, not_le, not_le]
      simp only [List.filter_cons, List.filter_nil, decide_eq_true_eq, Bool.not_eq_true',
        decide_eq_false_iff_not, hh]
      split_ifs <;> simp
    · rw [if_neg hl, if_neg hl]
      exact List.singleton_append
  · unfold explanationFindings
    by_cases hl : lbl = "FRAUD"
    · rw [if_pos hl, if_pos hl]
      rfl
    · rw [if_neg hl, if_neg hl]
      rfl

/-- **C10.**  The explanation is total over partial records (`dict.get`
defaults): it is unchanged when every missing field is replaced by `0`,
and a FRAUD record with a missing hour (resp. missing account age) is
reported as unusual time at hour `0` (resp. as a new account). -/
theorem C10_partial_record_defaults :
    ∀ (r : RawRecord) (score : ℚ) (lbl : String),
      explanationFindings r score lbl = explanationFindings (withDefaults r) score lbl ∧
      (r.transaction_hour = none → Finding.unusualTime 0 ∈ explanationFindings r score "FRAUD") ∧
      (r.account_age_days = none → Finding.newAccount 0 ∈ explanationFindings r score "FRAUD") := by
  intro r score lbl
  refine ⟨rfl, ?_, ?_⟩
  · intro hh
    simp [explanationFindings, hh]
  · intro hh
    simp [explanationFindings, hh]


theorem roundTo_clip_bounds (d lo hi : ℕ) (x : ℚ) (h : (lo : ℚ) ≤ (hi : ℚ)) :
    (lo : ℚ) ≤ roundTo d (clip x lo hi) ∧ roundTo d (clip x lo hi) ≤ (hi : ℚ) := by
  obtain ⟨h1, h2⟩ := clip_bounds x lo hi h
  exact roundTo_nat_bounds d lo hi _ h1 h2

theorem roundTo_unit_bounds (x : ℚ) (h1 : 0 ≤ x) (h2 : x ≤ 1) :
    0 ≤ roundTo 3 x ∧ roundTo 3 x ≤ 1 := by
  have h := roundTo_nat_bounds 3 0 1 x (by exact_mod_cast h1) (by exact_mod_cast h2)
  push_cast at h
  exact h

theorem choiceNat_lt (n : ℕ) (s : RandState) (h : 0 < n) : (choiceNat n s).1 < n := by
  dsimp only [choiceNat]
  exact Nat.mod_lt _ h

theorem nineHour_le (s : RandState) : 9 + (choiceNat 12 s).1 ≤ 23 := by
  have := choiceNat_lt 12 s (by norm_num)
  omega

theorem choice24_le (s : RandState) : (choiceNat 24 s).1 ≤ 23 := by
  have := choiceNat_lt 24 s (by norm_num)
  omega

theorem pickAt_lateNight_le (m : ℕ) : pickAt ([0, 1, 2, 3, 4, 5, 22, 23] : List ℕ) m ≤ 23 := by
  by_cases h : m < 8
  · interval_cases m <;> decide
  · obtain ⟨n, rfl⟩ : ∃ n, m = n + 8 := ⟨m - 8, by omega⟩
    show (0 : ℕ) ≤ 23
    decide

theorem lateNightHour_le (s : RandState) :
    (choiceList [0, 1, 2, 3, 4, 5, 22, 23] s).1 ≤ 23 := by
  dsimp only [choiceList]
  exact pickAt_lateNight_le _

theorem roundTo3_beta_bounds (a b : ℚ) (s : RandState) :
    0 ≤ roundTo 3 (betaDraw a b s).1 ∧ roundTo 3 (betaDraw a b s).1 ≤ 1 :=
  roundTo_unit_bounds _ (betaDraw_bounds a b s).1 (le_of_lt (betaDraw_bounds a b s).2)

theorem roundTo3_unif_bounds (s : RandState) :
    0 ≤ roundTo 3 (uniformDraw (7/10) 1 s).1 ∧ roundTo 3 (uniformDraw (7/10) 1 s).1 ≤ 1 := by
  obtain ⟨h1, h2⟩ := uniformDraw_bounds (7/10) 1 s (by norm_num)
  exact roundTo_unit_bounds _ (by linarith) h2

theorem highAmount_roundTo_bounds (x : ℚ) :
    10000 ≤ roundTo 2 (clip x 10000 100000) ∧ roundTo 2 (clip x 10000 100000) ≤ 100000 := by
  have h := roundTo_clip_bounds 2 10000 100000 x (by norm_num)
  push_cast at h
  exact h

theorem genNormalOne_bounds (i : ℕ) (s : RandState) :
    1 ≤ (genNormalOne i s).1.amount ∧ (genNormalOne i s).1.amount ≤ 50000 ∧
    (genNormalOne i s).1.transaction_hour ≤ 23 ∧
    0 ≤ (genNormalOne i s).1.location_risk_score ∧
    (genNormalOne i s).1.location_risk_score ≤ 1 ∧
    0 ≤ (genNormalOne i s).1.device_risk_score ∧
    (genNormalOne i s).1.device_risk_score ≤ 1 := by
  dsimp only [genNormalOne]
  have ha := roundTo_clip_bounds 2 1 50000 (lognormalDraw 3 (3/2) s).1 (by norm_num)
  push_cast at ha
  obtain ⟨hb0, hb1⟩ := betaDraw_bounds 2 10
    (gammaDraw 2 365 (weightedChoice transactionTypes typeWeights (lognormalDraw 3 (3/2) s).2).2).2
  have hl := roundTo_unit_bounds _ hb0 (le_of_lt hb1)
  obtain ⟨hc0, hc1⟩ := betaDraw_bounds 3 8
    (betaDraw 2 10 (gammaDraw 2 365 (weightedChoice transactionTypes typeWeights
      (lognormalDraw 3 (3/2) s).2).2).2).2
  have hd := roundTo_unit_bounds _ hc0 (le_of_lt hc1)
  have hh := weightedIndex_lt hourWeights
    (unitDraw (betaDraw 3 8 (betaDraw 2 10 (gammaDraw 2 365 (weightedChoice transactionTypes
      typeWeights (lognormalDraw 3 (3/2) s).2).2).2).2).2).1
    (List.ne_nil_of_length_pos (by norm_num [hourWeights, hourWeightsRaw]))
  have hlen : hourWeights.length = 24 := rfl
  rw [hlen] at hh
  exact ⟨ha.1, ha.2, by omega, hl.1, hl.2, hd.1, hd.2⟩

theorem gb_hour_ha (i : ℕ) (s : RandState) :
    (genFraudOneBody "high_amount" i s).1.transaction_hour =
      9 + (choiceNat 12 (choiceList ["transfer", "purchase"] (lognormalDraw 8 (3/2) s).2).2).1 :=
  rfl

theorem gb_hour_ln (i : ℕ) (s : RandState) :
    (genFraudOneBody "late_night" i s).1.transaction_hour =
      (choiceList [0, 1, 2, 3, 4, 5, 22, 23]
        (choiceList ["transfer", "withdrawal"] (lognormalDraw 4 (3/2) s).2).2).1 := rfl

theorem gb_hour_hr (i : ℕ) (s : RandState) :
    (genFraudOneBody "high_risk" i s).1.transaction_hour =
      (choiceNat 24 (choiceList ["transfer", "purchase"] (lognormalDraw 5 (3/2) s).2).2).1 := rfl

theorem gb_hour_bu (i : ℕ) (s : RandState) :
    (genFraudOneBody "burst" i s).1.transaction_hour =
      (choiceNat 24 (choiceList ["purchase", "payment"] (lognormalDraw (7/2) 1 s).2).2).1 := rfl

theorem gb_lrisk_beta (ft : String) (i : ℕ) (s : RandState)
    (h1 : (genFraudOneBody ft i s).1.location_risk_score =
      roundTo 3 (betaDraw 1 3 (fraudBranch ft s).2).1) :
    0 ≤ (genFraudOneBody ft i s).1.location_risk_score ∧
      (genFraudOneBody ft i s).1.location_risk_score ≤ 1 := by
  rw [h1]
  exact roundTo3_beta_bounds 1 3 _

theorem gb_drisk_beta (ft : String) (i : ℕ) (s : RandState)
    (h1 : (genFraudOneBody ft i s).1.device_risk_score =
      roundTo 3 (betaDraw 1 2 (betaDraw 1 3 (fraudBranch ft s).2).2).1) :
    0 ≤ (genFraudOneBody ft i s).1.device_risk_score ∧
      (genFraudOneBody ft i s).1.device_risk_score ≤ 1 := by
  rw [h1]
  exact roundTo3_beta_bounds 1 2 _

theorem gb_lrisk_hr (i : ℕ) (s : RandState) :
    0 ≤ (genFraudOneBody "high_risk" i s).1.location_risk_score ∧
      (genFraudOneBody "high_risk" i s).1.location_risk_score ≤ 1 := by
  have h1 : (genFraudOneBody "high_risk" i s).1.location_risk_score =
      roundTo 3 ((fraudBranch "high_risk" s).1.lrisk.getD 0) := rfl
  have h2 : (fraudBranch "high_risk" s).1.lrisk =
      some (uniformDraw (7/10) 1
        (choiceNat 24 (choiceList ["transfer", "purchase"]
          (lognormalDraw 5 (3/2) s).2).2).2).1 := rfl
  rw [h1, h2, Option.getD_some]
  exact roundTo3_unif_bounds _

theorem gb_drisk_hr (i : ℕ) (s : RandState) :
    0 ≤ (genFraudOneBody "high_risk" i s).1.device_risk_score ∧
      (genFraudOneBody "high_risk" i s).1.device_risk_score ≤ 1 := by
  have h1 : (genFraudOneBody "high_risk" i s).1.device_risk_score =
      roundTo 3 ((fraudBranch "high_risk" s).1.drisk.getD 0) := rfl
  have h2 : (fraudBranch "high_risk" s).1.drisk =
      some (uniformDraw (7/10) 1 (uniformDraw (7/10) 1
        (choiceNat 24 (choiceList ["transfer", "purchase"]
          (lognormalDraw 5 (3/2) s).2).2).2).2).1 := rfl
  rw [h1, h2, Option.getD_some]
  exact roundTo3_unif_bounds _

theorem gb_amount_ha (i : ℕ) (s : RandState) :
    10000 ≤ (genFraudOneBody "high_amount" i s).1.amount ∧
      (genFraudOneBody "high_amount" i s).1.amount ≤ 100000 := by
  have h1 : (genFraudOneBody "high_amount" i s).1.amount =
      roundTo 2 (clip (lognormalDraw 8 (3/2) s).1 10000 100000) := rfl
  rw [h1]
  exact highAmount_roundTo_bounds _

theorem genFraudBody_bounds : ∀ (ft : String) (i : ℕ) (s : RandState), ft ∈ fraudTypes →
    (genFraudOneBody ft i s).1.transaction_hour ≤ 23 ∧
    0 ≤ (genFraudOneBody ft i s).1.location_risk_score ∧
    (genFraudOneBody ft i s).1.location_risk_score ≤ 1 ∧
    0 ≤ (genFraudOneBody ft i s).1.device_risk_score ∧
    (genFraudOneBody ft i s).1.device_risk_score ≤ 1 ∧
    (ft = "high_amount" →
      10000 ≤ (genFraudOneBody ft i s).1.amount ∧
        (genFraudOneBody ft i s).1.amount ≤ 100000) := by
  intro ft i s hft
  simp only [fraudTypes, List.mem_cons, List.not_mem_nil, or_false] at hft
  rcases hft with h | h | h | h
  · subst h
    obtain ⟨hl0, hl1⟩ := gb_lrisk_beta "high_amount" i s rfl
    obtain ⟨hd0, hd1⟩ := gb_drisk_beta "high_amount" i s rfl
    exact ⟨by rw [gb_hour_ha]; exact nineHour_le _, hl0, hl1, hd0, hd1,
      fun _ => gb_amount_ha i s⟩
  · subst h
    obtain ⟨hl0, hl1⟩ := gb_lrisk_beta "late_night" i s rfl
    obtain ⟨hd0, hd1⟩ := gb_drisk_beta "late_night" i s rfl
    exact ⟨by rw [gb_hour_ln]; exact lateNightHour_le _, hl0, hl1, hd0, hd1,
      fun hcon => absurd hcon (by decide)⟩
  · subst h
    obtain ⟨hl0, hl1⟩ := gb_lrisk_hr i s
    obtain ⟨hd0, hd1⟩ := gb_drisk_hr i s
    exact ⟨by rw [gb_hour_hr]; exact choice24_le _, hl0, hl1, hd0, hd1,
      fun hcon => absurd hcon (by decide)⟩
  · subst h
    obtain ⟨hl0, hl1⟩ := gb_lrisk_beta "burst" i s rfl
    obtain ⟨hd0, hd1⟩ := gb_drisk_beta "burst" i s rfl
    exact ⟨by rw [gb_hour_bu]; exact choice24_le _, hl0, hl1, hd0, hd1,
      fun hcon => absurd hcon (by decide)⟩

theorem pickAt_fraudTypes_mem (m : ℕ) (h : m < 4) : pickAt fraudTypes m ∈ fraudTypes := by
  interval_cases m <;> decide

theorem choiceList_fraudTypes_mem (s : RandState) : (choiceList fraudTypes s).1 ∈ fraudTypes := by
  dsimp only [choiceList]
  apply pickAt_fraudTypes_mem
  have h : (nextNat s).1 % fraudTypes.length < fraudTypes.length := Nat.mod_lt _ (by decide)
  simpa [fraudTypes] using h

theorem genNormalList_mem (n i0 : ℕ) (s : RandState) :
    ∀ r ∈ (genNormalList n i0 s).1, ∃ j s1, r = (genNormalOne j s1).1 := by
  induction n generalizing i0 s with
  | zero => intro r hr; simp [genNormalList] at hr
  | succ n ih =>
    intro r hr
    simp only [genNormalList] at hr
    rcases List.mem_cons.mp hr with h | h
    · exact ⟨i0, s, h⟩
    · exact ih _ _ r h

theorem genFraudList_mem (n i0 : ℕ) (s : RandState) :
    ∀ r ∈ (genFraudList n i0 s).1,
      ∃ ft j s1, ft ∈ fraudTypes ∧ r = (genFraudOneBody ft j s1).1 := by
  induction n generalizing i0 s with
  | zero => intro r hr; simp [genFraudList] at hr
  | succ n ih =>
    intro r hr
    simp only [genFraudList] at hr
    rcases List.mem_cons.mp hr with h | h
    · exact ⟨(choiceList fraudTypes s).1, i0, (choiceList fraudTypes s).2,
        choiceList_fraudTypes_mem s, h⟩
    · exact ih _ _ r h

/-- **C7.**  Every record of the normal-generation loop has `amount` in
`[1, 50000]`, `transaction_hour` in `[0, 23]` and both risk scores in
`[0, 1]`; every record of the fraud loop has `transaction_hour` in
`[0, 23]` and risk scores in `[0, 1]`; and a fraud record generated under
the `high_amount` archetype has `amount` in `[10000, 100000]` — all after
the 2-decimal rounding of `amount` and 3-decimal rounding of the risk
scores. -/
theorem C7_distribution_bounds :
    (∀ (n i0 : ℕ) (s : RandState) (r : GenRecord), r ∈ (genNormalList n i0 s).1 →
      1 ≤ r.amount ∧ r.amount ≤ 50000 ∧ r.transaction_hour ≤ 23 ∧
      0 ≤ r.location_risk_score ∧ r.location_risk_score ≤ 1 ∧
      0 ≤ r.device_risk_score ∧ r.device_risk_score ≤ 1) ∧
    (∀ (n i0 : ℕ) (s : RandState) (r : GenRecord), r ∈ (genFraudList n i0 s).1 →
      r.transaction_hour ≤ 23 ∧
      0 ≤ r.location_risk_score ∧ r.location_risk_score ≤ 1 ∧
      0 ≤ r.device_risk_score ∧ r.device_risk_score ≤ 1) ∧
    (∀ (ft : String) (i : ℕ) (s : RandState), ft = "high_amount" →
      10000 ≤ (genFraudOneBody ft i s).1.amount ∧
        (genFraudOneBody ft i s).1.amount ≤ 100000) := by
  refine ⟨?_, ?_, ?_⟩
  · intro n i0 s r hr
    obtain ⟨j, s1, rfl⟩ := genNormalList_mem n i0 s r hr
    exact genNormalOne_bounds j s1
  · intro n i0 s r hr
    obtain ⟨ft, j, s1, hft, rfl⟩ := genFraudList_mem n i0 s r hr
    obtain ⟨h1, h2, h3, h4, h5, _⟩ := genFraudBody_bounds ft j s1 hft
    exact ⟨h1, h2, h3, h4, h5⟩
  · intro ft i s hft
    subst hft
    exact gb_amount_ha i s

/-- **C7, witness**: the first record of a one-record normal run at seed
state 7 satisfies the amount bounds, and a `high_amount` fraud body draw
satisfies the fraud amount bounds. -/
theorem C7_distribution_bounds_witness :
    ((genNormalOne 0 ⟨7⟩).1 ∈ (genNormalList 1 0 ⟨7⟩).1) ∧
    (1 ≤ (genNormalOne 0 ⟨7⟩).1.amount ∧ (genNormalOne 0 ⟨7⟩).1.amount ≤ 50000) ∧
    (10000 ≤ (genFraudOneBody "high_amount" 0 ⟨7⟩).1.amount ∧
      (genFraudOneBody "high_amount" 0 ⟨7⟩).1.amount ≤ 100000) := by
  have hmem : (genNormalOne 0 ⟨7⟩).1 ∈ (genNormalList 1 0 ⟨7⟩).1 :=
    List.mem_singleton_self _
  refine ⟨hmem, ?_, ?_⟩
  · obtain ⟨h1, h2, _⟩ := C7_distribution_bounds.1 1 0 ⟨7⟩ _ hmem
    exact ⟨h1, h2⟩
  · exact C7_distribution_bounds.2.2 "high_amount" 0 ⟨7⟩ rfl

/-- **C10, witness**: a record missing every explanation field is
explained with the hour-0 and new-account findings. -/
theorem C10_partial_record_defaults_witness :
    rBare.transaction_hour = none ∧ rBare.account_age_days = none ∧
    Finding.unusualTime 0 ∈ explanationFindings rBare (1/5) "FRAUD" ∧
    Finding.newAccount 0 ∈ explanationFindings rBare (1/5) "FRAUD" :=
  ⟨rfl, rfl, (C10_partial_record_defaults rBare (1/5) "FRAUD").2.1 rfl,
   (C10_partial_record_defaults rBare (1/5) "FRAUD").2.2 rfl⟩

end FraudDetect
